import Mathlib

/-!
# Payment reconciliation core of Deverselabs/deversegate — shallow embedding

This file embeds the payment-reconciliation subsystem of the repository:

* `src/lib/payment-monitor.ts` — the transfer-scan reconciliation pass
  (`monitorPayments`, `checkAddressForPayment`, `amountToWei`,
  `rawValueToBigInt`, the module constant `MAX_TRANSFERS_PER_ADDRESS`);
* `src/lib/contract-monitor.ts` — the contract-event handler installed by
  `startContractMonitoring` (the body of the `InvoicePaid` listener).

External collaborators are modelled explicitly:

* the Prisma invoice store is a `List Invoice` threaded through every
  operation; `db.invoice.findMany`, `db.invoice.update` and
  `db.invoice.findUnique` become pure functions on that list;
* the Alchemy transfer API is a field of `Env` giving, per (lowercased)
  recipient address, the full stream of external nonzero-value transfer
  records the upstream would serve, in API order; the `maxCount` request
  parameter caps the records actually returned at the first `maxCount`;
* fallible calls return `Except String _`; a thrown JS exception is
  `Except.error` with the message; injectable faults (network failure,
  database failure) are `Env` fields;
* JS `bigint` is `Int`; the wall clock is `Env.now : Nat` (milliseconds);
  Prisma `Decimal` amounts are carried as their decimal `String` rendering
  (the source only ever calls `.toString()` on them).
-/

namespace DeverseGate

/-- Invoice status enum of the Prisma schema (subset used by the
reconciliation code): UNPAID, PAID, OVERDUE. -/
inductive InvoiceStatus where
  | UNPAID
  | PAID
  | OVERDUE
  deriving DecidableEq, Repr

/-- The invoice row, restricted to the fields the reconciliation code reads
or writes (id, invoiceNumber, amount, currency, paymentAddress, status,
paymentTxHash, paidAt, paidViaContract). -/
structure Invoice where
  id : String
  invoiceNumber : String
  amount : String
  currency : String
  paymentAddress : Option String
  status : InvoiceStatus
  paymentTxHash : Option String
  paidAt : Option Nat
  paidViaContract : Bool
  deriving DecidableEq, Repr

/-- One raw transfer record as returned by alchemy.core.getAssetTransfers:
the fields the scan reads are the transaction hash, the asset symbol and
rawContract.value (a hex string). Each field is optional in the SDK types. -/
structure Transfer where
  hash : Option String
  asset : Option String
  rawValue : Option String
  deriving DecidableEq, Repr

/-- Summary returned by monitorPayments (interface PaymentMonitorSummary).
Errors are (invoiceId, error-message) pairs. -/
structure PaymentMonitorSummary where
  checked : Nat
  detected : Nat
  updated : List String
  errors : List (String × String)
  deriving DecidableEq, Repr

/-- The environment a reconciliation pass runs in: whether the Alchemy
client was constructed (ALCHEMY_API_KEY present), the upstream transfer
stream per lowercased recipient address (Except.error = network/upstream
failure), injectable per-invoice-id database write failures, an injectable
failure of the initial findMany, and the current time in milliseconds. -/
structure Env where
  alchemyConfigured : Bool
  ledger : String → Except String (List Transfer)
  updateFail : String → Option String
  findManyFail : Option String
  now : Nat

/-- Lookback: max number of transfers to fetch per address when checking
for payments (module constant MAX_TRANSFERS_PER_ADDRESS). -/
def MAX_TRANSFERS_PER_ADDRESS : Nat := 100

/-- Value of a list of decimal digit characters, most significant first. -/
def digitsVal (cs : List Char) : Nat :=
  cs.foldl (fun acc c => acc * 10 + (c.toNat - '0'.toNat)) 0

/-- Shape check for a decimal-number string: an optional leading minus
sign, then digits, then optionally a dot and more digits (the regex
viem's parseUnits validates against). -/
def isDecShape (cs : List Char) : Bool :=
  let cs1 := if cs.head? = some '-' then cs.tail else cs
  let rest := cs1.dropWhile Char.isDigit
  match rest with
  | [] => true
  | c :: fracPart => c = '.' && fracPart.all Char.isDigit

/-- Model of viem's parseEther (= parseUnits with 18 decimals), the library
function payment-monitor.ts uses: validates the decimal shape, splits into
integer and fraction parts, trims trailing zeros of the fraction, pads a
short fraction to 18 digits, and rounds half-up at the 18th decimal when
the fraction is longer; malformed input throws (Except.error). -/
def parseEtherChars (cs : List Char) : Except String Int :=
  if isDecShape cs = false then .error "Number is not a valid decimal number."
  else
    let neg := cs.head? = some '-'
    let cs1 := if neg then cs.tail else cs
    let intPart := cs1.takeWhile Char.isDigit
    let fracRaw : List Char :=
      match cs1.dropWhile Char.isDigit with
      | _ :: f => f
      | [] => []
    let frac := (fracRaw.reverse.dropWhile (fun c => c = '0')).reverse
    if 18 < frac.length then
      let kept := frac.take 18
      let roundUp : Bool :=
        match frac.drop 18 with
        | d :: _ => '5' ≤ d
        | [] => false
      let mag : Nat := digitsVal intPart * 10 ^ 18 + digitsVal kept + (if roundUp then 1 else 0)
      .ok (if neg then -(mag : Int) else (mag : Int))
    else
      let mag : Nat := digitsVal intPart * 10 ^ 18 + digitsVal frac * 10 ^ (18 - frac.length)
      .ok (if neg then -(mag : Int) else (mag : Int))

/-- parseEther on strings. -/
def parseEther (s : String) : Except String Int :=
  parseEtherChars s.data

/-- Convert invoice amount (in ETH) to Wei as bigint for comparison with
chain data (function amountToWei of payment-monitor.ts). The source accepts
string | number and stringifies a number first; amounts reach it as the
string rendering of the Prisma Decimal. -/
def amountToWei (amount : String) : Except String Int :=
  parseEther amount

/-- JS String.prototype.toUpperCase restricted to the ASCII symbol strings
this code compares: uppercase every character. -/
def jsToUpper (s : String) : String :=
  ⟨s.data.map Char.toUpper⟩

/-- JS String.prototype.toLowerCase restricted to the ASCII address strings
this code normalizes: lowercase every character. -/
def jsToLower (s : String) : String :=
  ⟨s.data.map Char.toLower⟩

/-- Whether a string literally starts with 0x. -/
def startsWith0x (s : String) : Bool :=
  match s.data with
  | '0' :: 'x' :: _ => true
  | _ => false

/-- Value of one hex digit character, if any (JS BigInt hex literals accept
both cases). -/
def hexDigit? (c : Char) : Option Nat :=
  if '0' ≤ c ∧ c ≤ '9' then some (c.toNat - '0'.toNat)
  else if 'a' ≤ c ∧ c ≤ 'f' then some (c.toNat - 'a'.toNat + 10)
  else if 'A' ≤ c ∧ c ≤ 'F' then some (c.toNat - 'A'.toNat + 10)
  else none

/-- Accumulator for hexVal. -/
def hexValAux : List Char → Nat → Option Nat
  | [], acc => some acc
  | c :: cs, acc =>
    match hexDigit? c with
    | some d => hexValAux cs (acc * 16 + d)
    | none => none

/-- Value of a nonempty all-hex digit string; none on an empty digit list
(BigInt with an empty hex body throws) or any non-hex character. -/
def hexVal (cs : List Char) : Option Nat :=
  match cs with
  | [] => none
  | _ => hexValAux cs 0

/-- Parse raw value from Alchemy transfer (hex string) to bigint (function
rawValueToBigInt of payment-monitor.ts): null/undefined or the empty string
give null; otherwise a 0x prefix is added unless already present and the
string is parsed as a BigInt hex literal, any parse failure giving null. -/
def rawValueToBigInt (raw : Option String) : Option Int :=
  match raw with
  | none => none
  | some r =>
    if r = "" then none
    else
      let hexDigits : List Char := if startsWith0x r then r.data.drop 2 else r.data
      (hexVal hexDigits).map (fun n => (n : Int))

/-- Model of alchemy.core.getAssetTransfers as called at
payment-monitor.ts:69-76: the upstream serves env.ledger toAddress (already
restricted to external, nonzero-value transfers to that address, in API
order) and the maxCount request parameter caps the result at the first
maxCount records; an upstream failure is Except.error. -/
def getAssetTransfers (env : Env) (toAddress : String) (maxCount : Nat) :
    Except String (List Transfer) :=
  (env.ledger toAddress).map (fun l => l.take maxCount)

/-- The for-loop of checkAddressForPayment (payment-monitor.ts:78-87):
skip transfers whose asset does not uppercase to ETH, skip transfers whose
raw value fails to parse, and on the first transfer whose raw Wei value
equals the expected Wei value return its hash (which may itself be absent:
return transfer.hash ?? null ends the loop either way). -/
def scanForMatch (expectedWei : Int) : List Transfer → Option String
  | [] => none
  | t :: ts =>
    if (t.asset.map jsToUpper) ≠ some "ETH" then scanForMatch expectedWei ts
    else
      match rawValueToBigInt t.rawValue with
      | none => scanForMatch expectedWei ts
      | some rawWei => if rawWei = expectedWei then t.hash else scanForMatch expectedWei ts

/-- Check a single address for a payment matching the expected amount in
ETH (function checkAddressForPayment of payment-monitor.ts). Returns the
transaction hash if a matching incoming ETH transfer is found, null
otherwise; returns null without fetching when the Alchemy client is not
configured; a parse failure of the expected amount or an upstream fetch
failure is rethrown to the caller. -/
def checkAddressForPayment (env : Env) (address : String) (expectedAmountEth : String) :
    Except String (Option String) :=
  if env.alchemyConfigured = false then .ok none
  else
    match amountToWei expectedAmountEth with
    | .error e => .error e
    | .ok expectedWei =>
      match getAssetTransfers env (jsToLower address) MAX_TRANSFERS_PER_ADDRESS with
      | .error e => .error e
      | .ok transfers => .ok (scanForMatch expectedWei transfers)

/-- The db.invoice.update call at payment-monitor.ts:164-171: set
status=PAID, paymentTxHash and paidAt=now on the row selected by id. The
where clause filters on id only — it carries no status condition. -/
def markPaid (s : List Invoice) (id txHash : String) (now : Nat) : List Invoice :=
  s.map (fun inv =>
    if inv.id = id then
      { inv with status := .PAID, paymentTxHash := some txHash, paidAt := some now }
    else inv)

/-- The empty summary monitorPayments starts from. -/
def emptySummary : PaymentMonitorSummary :=
  { checked := 0, detected := 0, updated := [], errors := [] }

/-- The per-invoice loop of monitorPayments (payment-monitor.ts:140-181):
for each pending invoice, call checkAddressForPayment; a thrown error is
recorded as (invoiceId, message) and the loop continues; a null result is
skipped; a found hash increments detected and then either the row update
succeeds (id appended to updated, store updated via markPaid) or the
update failure is recorded as a DB update failed error and the loop
continues. (invoice.amount.toString() cannot fail in this model, so the
Invalid amount catch branch at lines 145-148 is unreachable.) -/
def monitorLoop (env : Env) :
    List Invoice → PaymentMonitorSummary → List Invoice →
      PaymentMonitorSummary × List Invoice
  | [], summary, s => (summary, s)
  | inv :: rest, summary, s =>
    match checkAddressForPayment env (inv.paymentAddress.getD "") inv.amount with
    | .error m =>
      monitorLoop env rest { summary with errors := summary.errors ++ [(inv.id, m)] } s
    | .ok none => monitorLoop env rest summary s
    | .ok (some txHash) =>
      let summary1 := { summary with detected := summary.detected + 1 }
      match env.updateFail inv.id with
      | some m =>
        monitorLoop env rest
          { summary1 with errors := summary1.errors ++ [(inv.id, "DB update failed: " ++ m)] } s
      | none =>
        monitorLoop env rest { summary1 with updated := summary1.updated ++ [inv.id] }
          (markPaid s inv.id txHash env.now)

/-- The pending-invoice selection of monitorPayments (payment-monitor.ts:
118-124): rows with status UNPAID and a non-null paymentAddress. -/
def pendingFilter (inv : Invoice) : Bool :=
  decide (inv.status = .UNPAID) && inv.paymentAddress.isSome

/-- The pending snapshot a pass starts from. -/
def pendingOf (s : List Invoice) : List Invoice :=
  s.filter pendingFilter

/-- Scan all unpaid invoices with a payment address, detect matching
blockchain payments, and update invoice status (function monitorPayments of
payment-monitor.ts). Returns the summary, or Except.error when the initial
findMany of unpaid invoices throws; when the Alchemy client is not
configured the empty summary is returned without touching the store. -/
def monitorPayments (env : Env) (s : List Invoice) :
    Except String (PaymentMonitorSummary × List Invoice) :=
  if env.alchemyConfigured = false then .ok (emptySummary, s)
  else
    match env.findManyFail with
    | some m => .error m
    | none =>
      let unpaidInvoices := s.filter pendingFilter
      let withAddress := unpaidInvoices.filter (fun inv => inv.paymentAddress.isSome)
      let checked := withAddress.length
      if checked = 0 then .ok ({ emptySummary with checked := checked }, s)
      else .ok (monitorLoop env withAddress { emptySummary with checked := checked } s)

/-- One decoded InvoicePaid event as the contract-monitor listener sees it
after recovering the invoice number from the transaction input data
(contract-monitor.ts:25-35): the invoice number, the event transaction
hash, and the event timestamp in seconds. -/
structure PaidEvent where
  invoiceNumber : String
  txHash : String
  timestampSec : Nat
  deriving DecidableEq, Repr

/-- The database effect of the InvoicePaid listener installed by
startContractMonitoring (contract-monitor.ts:42-71): findUnique the invoice
by invoiceNumber; if absent, do nothing; if its status is already PAID, do
nothing (logged as already marked, not an error); otherwise update the row
selected by id to status=PAID with paymentTxHash = the event transaction
hash, paidAt = timestamp * 1000 and paidViaContract = true, all in one
write. -/
def handleInvoicePaid (s : List Invoice) (ev : PaidEvent) : List Invoice :=
  match s.find? (fun inv => inv.invoiceNumber = ev.invoiceNumber) with
  | none => s
  | some invoice =>
    if invoice.status = .PAID then s
    else
      s.map (fun inv =>
        if inv.id = invoice.id then
          { inv with
            status := .PAID
            paymentTxHash := some ev.txHash
            paidAt := some (ev.timestampSec * 1000)
            paidViaContract := true }
        else inv)

/-- Outcome of processing one pending invoice inside the monitorPayments
loop: the check threw, the check found nothing, a payment was detected but
the row update threw, or a payment was detected and persisted. -/
inductive StepResult where
  | checkFailed (msg : String)
  | noMatch
  | updateFailed (txHash msg : String)
  | updatedOk (txHash : String)
  deriving DecidableEq, Repr

/-- The outcome of one loop iteration is a pure function of the environment
and that invoice alone (the loop reads only the snapshot row and env). -/
def stepOf (env : Env) (inv : Invoice) : StepResult :=
  match checkAddressForPayment env (inv.paymentAddress.getD "") inv.amount with
  | .error m => .checkFailed m
  | .ok none => .noMatch
  | .ok (some h) =>
    match env.updateFail inv.id with
    | some m => .updateFailed h m
    | none => .updatedOk h

/-- Whether the step counted as a detection (detected += 1 ran). -/
def StepResult.detects : StepResult → Bool
  | .updateFailed _ _ => true
  | .updatedOk _ => true
  | _ => false

/-- Whether the step persisted the payment (id appended to updated). -/
def StepResult.succeeds : StepResult → Bool
  | .updatedOk _ => true
  | _ => false

/-- Whether the step was a detection whose row update threw. -/
def StepResult.failedWrite : StepResult → Bool
  | .updateFailed _ _ => true
  | _ => false

/-- The error entry a step contributes to the summary, if any. -/
def errOf (env : Env) (inv : Invoice) : Option (String × String) :=
  match stepOf env inv with
  | .checkFailed m => some (inv.id, m)
  | .updateFailed _ m => some (inv.id, "DB update failed: " ++ m)
  | _ => none

/-- The summary a pass over the pending snapshot pend produces, computed
invoice by invoice. -/
def runSummary (env : Env) (pend : List Invoice) : PaymentMonitorSummary :=
  { checked := pend.length
  , detected := (pend.filter (fun i => (stepOf env i).detects)).length
  , updated := (pend.filter (fun i => (stepOf env i).succeeds)).map (fun i => i.id)
  , errors := pend.filterMap (errOf env) }

/-- The store updates a pass over the pending snapshot performs: one
markPaid per successfully persisted invoice, in loop order. -/
def applyUpdates (env : Env) : List Invoice → List Invoice → List Invoice
  | [], s => s
  | i :: rest, s =>
    match stepOf env i with
    | .updatedOk h => applyUpdates env rest (markPaid s i.id h env.now)
    | _ => applyUpdates env rest s

/-- The PAID version of a row as written by the pass. -/
def paidVersion (env : Env) (h : String) (r : Invoice) : Invoice :=
  { r with status := .PAID, paymentTxHash := some h, paidAt := some env.now }

/-- Effect of one loop iteration for invoice i on an arbitrary row r of the
store: the row is rewritten only when i's step persisted and the ids agree. -/
def chainStep (env : Env) (r : Invoice) (i : Invoice) : Invoice :=
  match stepOf env i with
  | .updatedOk h => if r.id = i.id then paidVersion env h r else r
  | _ => r

/-- Pre-truncating the upstream history to its first 100 records. -/
def truncate100 (env : Env) : Env :=
  { env with ledger := fun a => (env.ledger a).map (fun l => l.take 100) }

/-! ## Concrete instances used in settling the claims -/

/-- An UNPAID 0.5 ETH invoice at address 0xdef with the given id. -/
def inv05 (i : String) : Invoice :=
  { id := i, invoiceNumber := "INV-" ++ i, amount := "0.5", currency := "ETH"
  , paymentAddress := some "0xdef", status := .UNPAID, paymentTxHash := none
  , paidAt := none, paidViaContract := false }

/-- Environment whose history for 0xdef is exactly one 0.5 ETH transfer
with hash 0x1 (0x6f05b59d3b20000 Wei = 0.5 ETH); no injected faults. -/
def envShared : Env :=
  { alchemyConfigured := true
  , ledger := fun a =>
      if a = "0xdef" then
        .ok [{ hash := some "0x1", asset := some "ETH", rawValue := some "0x6f05b59d3b20000" }]
      else .ok []
  , updateFail := fun _ => none
  , findManyFail := none
  , now := 1000 }

/-- The PAID version of inv05 "a" after the first envShared pass. -/
def paid05a : Invoice :=
  { inv05 "a" with status := .PAID, paymentTxHash := some "0x1", paidAt := some 1000 }

/-- An UNPAID invoice denominated in USDC, amount 1, at address 0xabc. -/
def invUSDC : Invoice :=
  { id := "u1", invoiceNumber := "INV-u1", amount := "1", currency := "USDC"
  , paymentAddress := some "0xabc", status := .UNPAID, paymentTxHash := none
  , paidAt := none, paidViaContract := false }

/-- Environment whose history for 0xabc is one 1 ETH transfer with hash
0x2 (0xde0b6b3a7640000 Wei = 1 ETH). -/
def envUSDC : Env :=
  { alchemyConfigured := true
  , ledger := fun a =>
      if a = "0xabc" then
        .ok [{ hash := some "0x2", asset := some "ETH", rawValue := some "0xde0b6b3a7640000" }]
      else .ok []
  , updateFail := fun _ => none
  , findManyFail := none
  , now := 777 }

/-- Environment whose history for 0xabc is one ETH transfer of exactly
1.0001 ETH (0xde111a6b7de4000 Wei = 1000100000000000000). -/
def envOffByTol : Env :=
  { alchemyConfigured := true
  , ledger := fun a =>
      if a = "0xabc" then
        .ok [{ hash := some "0xaaa", asset := some "ETH", rawValue := some "0xde111a6b7de4000" }]
      else .ok []
  , updateFail := fun _ => none
  , findManyFail := none
  , now := 0 }

/-- Environment whose history for 0xabc is one ETH transfer of exactly
1 ETH with hash 0xbbb. -/
def envExactPay : Env :=
  { alchemyConfigured := true
  , ledger := fun a =>
      if a = "0xabc" then
        .ok [{ hash := some "0xbbb", asset := some "ETH", rawValue := some "0xde0b6b3a7640000" }]
      else .ok []
  , updateFail := fun _ => none
  , findManyFail := none
  , now := 0 }

/-- Environment whose history for 0xabc is one USDC transfer (raw value
0xf4240 = 1000000, i.e. 1 USDC in its smallest unit). -/
def envUsdcOnly : Env :=
  { alchemyConfigured := true
  , ledger := fun a =>
      if a = "0xabc" then
        .ok [{ hash := some "0x7", asset := some "USDC", rawValue := some "0xf4240" }]
      else .ok []
  , updateFail := fun _ => none
  , findManyFail := none
  , now := 0 }

/-- A 1-Wei ETH filler transfer (never matches a 1 ETH expectation). -/
def tSmall : Transfer :=
  { hash := some "0xf", asset := some "ETH", rawValue := some "0x1" }

/-- A 1 ETH transfer with hash 0x9 that matches a 1 ETH expectation. -/
def tMatch : Transfer :=
  { hash := some "0x9", asset := some "ETH", rawValue := some "0xde0b6b3a7640000" }

/-- History for 0xabc: exactly 100 filler transfers. -/
def envCapOnly : Env :=
  { alchemyConfigured := true
  , ledger := fun a => if a = "0xabc" then .ok (List.replicate 100 tSmall) else .ok []
  , updateFail := fun _ => none
  , findManyFail := none
  , now := 0 }

/-- History for 0xabc: 100 filler transfers and then the matching one —
the matching record sits just past the 100-record cap. -/
def envCapPlus : Env :=
  { alchemyConfigured := true
  , ledger := fun a =>
      if a = "0xabc" then .ok (List.replicate 100 tSmall ++ [tMatch]) else .ok []
  , updateFail := fun _ => none
  , findManyFail := none
  , now := 0 }

/-- History for 0xabc: the matching transfer alone (within the cap). -/
def envNoCap : Env :=
  { alchemyConfigured := true
  , ledger := fun a => if a = "0xabc" then .ok [tMatch] else .ok []
  , updateFail := fun _ => none
  , findManyFail := none
  , now := 0 }

/-- An OVERDUE invoice with invoice number INV-2024-7. -/
def invOverdue : Invoice :=
  { id := "o1", invoiceNumber := "INV-2024-7", amount := "2", currency := "ETH"
  , paymentAddress := some "0x123", status := .OVERDUE, paymentTxHash := none
  , paidAt := none, paidViaContract := false }

/-- An InvoicePaid event for INV-2024-7. -/
def evOverdue : PaidEvent :=
  { invoiceNumber := "INV-2024-7", txHash := "0xc0ffee", timestampSec := 1700000000 }

/-- An invoice already PAID with paymentTxHash 0xold. -/
def invAlreadyPaid : Invoice :=
  { id := "p1", invoiceNumber := "INV-p1", amount := "3", currency := "ETH"
  , paymentAddress := some "0x456", status := .PAID, paymentTxHash := some "0xold"
  , paidAt := some 1, paidViaContract := false }

/-- An InvoicePaid event for the already-PAID invoice INV-p1. -/
def evSkip : PaidEvent :=
  { invoiceNumber := "INV-p1", txHash := "0xnew2", timestampSec := 1700000500 }

/-- UNPAID invoice whose address 0xerr suffers an upstream fetch failure. -/
def invErr : Invoice :=
  { id := "ea", invoiceNumber := "INV-ea", amount := "1", currency := "ETH"
  , paymentAddress := some "0xerr", status := .UNPAID, paymentTxHash := none
  , paidAt := none, paidViaContract := false }

/-- UNPAID invoice at 0xok whose matched write succeeds. -/
def invOk : Invoice :=
  { id := "ob", invoiceNumber := "INV-ob", amount := "1", currency := "ETH"
  , paymentAddress := some "0xok", status := .UNPAID, paymentTxHash := none
  , paidAt := none, paidViaContract := false }

/-- UNPAID invoice at 0xok whose matched write fails (db fault on id uf). -/
def invUF : Invoice :=
  { id := "uf", invoiceNumber := "INV-uf", amount := "1", currency := "ETH"
  , paymentAddress := some "0xok", status := .UNPAID, paymentTxHash := none
  , paidAt := none, paidViaContract := false }

/-- Environment with a fetch failure for 0xerr, a 1 ETH payment with hash
0x5 at 0xok, and a database write fault for invoice id uf. -/
def envFaulty : Env :=
  { alchemyConfigured := true
  , ledger := fun a =>
      if a = "0xerr" then .error "upstream timeout"
      else if a = "0xok" then
        .ok [{ hash := some "0x5", asset := some "ETH", rawValue := some "0xde0b6b3a7640000" }]
      else .ok []
  , updateFail := fun i => if i = "uf" then some "locked" else none
  , findManyFail := none
  , now := 42 }

/-- The store envFaulty is run against. -/
def storeFaulty : List Invoice := [invErr, invOk, invUF]

/-- Environment without an Alchemy client, whose store and upstream would
both fail if touched. -/
def envOffline : Env :=
  { alchemyConfigured := false
  , ledger := fun _ => .error "network unreachable"
  , updateFail := fun _ => some "database offline"
  , findManyFail := some "database offline"
  , now := 0 }

/-- The summary the faulty-environment pass produces. -/
def sumFaulty : PaymentMonitorSummary :=
  { checked := 3, detected := 2, updated := ["ob"]
  , errors := [("ea", "upstream timeout"), ("uf", "DB update failed: locked")] }

/-- The store the faulty-environment pass leaves behind. -/
def stFaulty : List Invoice :=
  [invErr, { invOk with status := .PAID, paymentTxHash := some "0x5", paidAt := some 42 }, invUF]

/-! ## Characterization of the pass -/

/-- The monitorPayments loop, started from any accumulator, contributes per
invoice: one detection count per detecting step, one updated id per
persisted step, one error entry per failing step, and one markPaid per
persisted step — each determined by that invoice alone. -/
theorem monitorLoop_eq (env : Env) (l : List Invoice) (summary : PaymentMonitorSummary)
    (s : List Invoice) :
    monitorLoop env l summary s =
      ({ checked := summary.checked
        , detected := summary.detected + (l.filter (fun i => (stepOf env i).detects)).length
        , updated := summary.updated ++ (l.filter (fun i => (stepOf env i).succeeds)).map (fun i => i.id)
        , errors := summary.errors ++ l.filterMap (errOf env) },
        applyUpdates env l s) := by
  induction l generalizing summary s with
  | nil => simp [monitorLoop, applyUpdates]
  | cons i rest ih =>
    rcases hc : checkAddressForPayment env (i.paymentAddress.getD "") i.amount with m | h
    · have hs : stepOf env i = .checkFailed m := by simp [stepOf, hc]
      simp [monitorLoop, hc, applyUpdates, ih, hs, errOf, StepResult.detects, StepResult.succeeds]
    · rcases h with _ | h
      · have hs : stepOf env i = .noMatch := by simp [stepOf, hc]
        simp [monitorLoop, hc, applyUpdates, ih, hs, errOf, StepResult.detects, StepResult.succeeds]
      · rcases hu : env.updateFail i.id with _ | m
        · have hs : stepOf env i = .updatedOk h := by simp [stepOf, hc, hu]
          simp [monitorLoop, hc, hu, applyUpdates, ih, hs, errOf,
            StepResult.detects, StepResult.succeeds, Nat.add_assoc, Nat.add_comm 1]
        · have hs : stepOf env i = .updateFailed h m := by simp [stepOf, hc, hu]
          simp [monitorLoop, hc, hu, applyUpdates, ih, hs, errOf,
            StepResult.detects, StepResult.succeeds, Nat.add_assoc, Nat.add_comm 1]

/-- The second paymentAddress filter of monitorPayments is redundant over
the findMany where-clause. -/
theorem withAddress_eq (s : List Invoice) :
    (s.filter pendingFilter).filter (fun inv => inv.paymentAddress.isSome) =
      s.filter pendingFilter := by
  rw [List.filter_filter]
  apply List.filter_congr
  intro a _
  unfold pendingFilter
  cases h : a.paymentAddress.isSome <;> simp [h]

/-- Master characterization: a pass with the Alchemy client configured and
a working findMany returns the per-invoice summary over the pending
snapshot and applies exactly the per-invoice updates. -/
theorem monitorPayments_ok (env : Env) (s : List Invoice)
    (hA : env.alchemyConfigured = true) (hF : env.findManyFail = none) :
    monitorPayments env s =
      .ok (runSummary env (pendingOf s), applyUpdates env (pendingOf s) s) := by
  unfold monitorPayments
  rw [hA, hF]
  simp only [Bool.true_eq_false, if_false]
  rw [withAddress_eq]
  by_cases h0 : (s.filter pendingFilter).length = 0
  · have hnil : s.filter pendingFilter = [] := List.length_eq_zero.mp h0
    simp [h0, pendingOf, hnil, runSummary, applyUpdates, emptySummary]
  · simp only [h0, if_false]
    rw [monitorLoop_eq]
    simp [runSummary, pendingOf, emptySummary]

/-- applyUpdates is a pointwise map of the chain of per-invoice row
rewrites over the store. -/
theorem applyUpdates_eq_map (env : Env) (l s : List Invoice) :
    applyUpdates env l s = s.map (fun r => l.foldl (chainStep env) r) := by
  induction l generalizing s with
  | nil => simp [applyUpdates]
  | cons i rest ih =>
    rcases hs : stepOf env i with m | _ | ⟨h, m⟩ | h
    · simp [applyUpdates, hs, ih, List.foldl_cons, chainStep]
    · simp [applyUpdates, hs, ih, List.foldl_cons, chainStep]
    · simp [applyUpdates, hs, ih, List.foldl_cons, chainStep]
    · have hmark : markPaid s i.id h env.now = s.map (fun r => chainStep env r i) := by
        unfold markPaid chainStep paidVersion
        rw [hs]
      simp only [applyUpdates, hs, ih, hmark, List.map_map, List.foldl_cons]
      rfl

/-- chainStep never changes a row's id. -/
theorem chainStep_id (env : Env) (r i : Invoice) : (chainStep env r i).id = r.id := by
  unfold chainStep paidVersion
  rcases stepOf env i with _ | _ | _ | h <;> simp
  by_cases hid : r.id = i.id <;> simp [hid]

/-- The chain of rewrites never changes a row's id. -/
theorem chain_foldl_id (env : Env) (l : List Invoice) (r : Invoice) :
    (l.foldl (chainStep env) r).id = r.id := by
  induction l generalizing r with
  | nil => rfl
  | cons i rest ih => rw [List.foldl_cons, ih, chainStep_id]

/-- A PAID row stays PAID along the chain. -/
theorem chain_foldl_paid (env : Env) (l : List Invoice) (r : Invoice)
    (h : r.status = .PAID) : (l.foldl (chainStep env) r).status = .PAID := by
  induction l generalizing r with
  | nil => exact h
  | cons i rest ih =>
    rw [List.foldl_cons]
    apply ih
    unfold chainStep paidVersion
    rcases stepOf env i with _ | _ | _ | h' <;> simp [h]
    by_cases hid : r.id = i.id <;> simp [hid, h]

/-- Shape of a row after the chain: either it is untouched and no listed
invoice with its id had a persisted step, or some listed invoice with its
id had a persisted step and the row ends as a paidVersion of itself. -/
theorem chain_shape (env : Env) (l : List Invoice) (r : Invoice) :
    (l.foldl (chainStep env) r = r ∧
      ∀ i ∈ l, i.id = r.id → (stepOf env i).succeeds = false) ∨
    ((∃ x ∈ l, x.id = r.id ∧ (stepOf env x).succeeds = true) ∧
      ∃ h, l.foldl (chainStep env) r = paidVersion env h r) := by
  induction l generalizing r with
  | nil => exact Or.inl ⟨rfl, by simp⟩
  | cons i rest ih =>
    rw [List.foldl_cons]
    rcases hs : stepOf env i with m | _ | ⟨h, m⟩ | h
    · have hstep : chainStep env r i = r := by unfold chainStep; rw [hs]
      rw [hstep]
      rcases ih r with ⟨heq, hall⟩ | ⟨⟨x, hx, hxid, hxs⟩, hh, heq⟩
      · exact Or.inl ⟨heq, by
          intro j hj hjid
          rcases List.mem_cons.mp hj with rfl | hj'
          · simp [hs, StepResult.succeeds]
          · exact hall j hj' hjid⟩
      · exact Or.inr ⟨⟨x, List.mem_cons_of_mem _ hx, hxid, hxs⟩, hh, heq⟩
    · have hstep : chainStep env r i = r := by unfold chainStep; rw [hs]
      rw [hstep]
      rcases ih r with ⟨heq, hall⟩ | ⟨⟨x, hx, hxid, hxs⟩, hh, heq⟩
      · exact Or.inl ⟨heq, by
          intro j hj hjid
          rcases List.mem_cons.mp hj with rfl | hj'
          · simp [hs, StepResult.succeeds]
          · exact hall j hj' hjid⟩
      · exact Or.inr ⟨⟨x, List.mem_cons_of_mem _ hx, hxid, hxs⟩, hh, heq⟩
    · have hstep : chainStep env r i = r := by unfold chainStep; rw [hs]
      rw [hstep]
      rcases ih r with ⟨heq, hall⟩ | ⟨⟨x, hx, hxid, hxs⟩, hh, heq⟩
      · exact Or.inl ⟨heq, by
          intro j hj hjid
          rcases List.mem_cons.mp hj with rfl | hj'
          · simp [hs, StepResult.succeeds]
          · exact hall j hj' hjid⟩
      · exact Or.inr ⟨⟨x, List.mem_cons_of_mem _ hx, hxid, hxs⟩, hh, heq⟩
    · by_cases hid : r.id = i.id
      · have hstep : chainStep env r i = paidVersion env h r := by
          unfold chainStep; rw [hs]; simp [hid]
        rw [hstep]
        rcases ih (paidVersion env h r) with ⟨heq, _⟩ | ⟨_, hh, heq⟩
        · exact Or.inr ⟨⟨i, List.mem_cons_self _ _, hid.symm, by simp [hs, StepResult.succeeds]⟩,
            h, heq⟩
        · refine Or.inr ⟨⟨i, List.mem_cons_self _ _, hid.symm, by simp [hs, StepResult.succeeds]⟩,
            hh, ?_⟩
          rw [heq]
          unfold paidVersion
          rfl
      · have hstep : chainStep env r i = r := by
          unfold chainStep; rw [hs]; simp [hid]
        rw [hstep]
        rcases ih r with ⟨heq, hall⟩ | ⟨⟨x, hx, hxid, hxs⟩, hh, heq⟩
        · exact Or.inl ⟨heq, by
            intro j hj hjid
            rcases List.mem_cons.mp hj with rfl | hj'
            · exact absurd hjid.symm hid
            · exact hall j hj' hjid⟩
        · exact Or.inr ⟨⟨x, List.mem_cons_of_mem _ hx, hxid, hxs⟩, hh, heq⟩

/-- When no listed invoice has a persisted step, the pass writes nothing. -/
theorem applyUpdates_no_success (env : Env) (l s : List Invoice)
    (h : ∀ i ∈ l, (stepOf env i).succeeds = false) :
    applyUpdates env l s = s := by
  induction l with
  | nil => rfl
  | cons i rest ih =>
    have hi := h i (List.mem_cons_self _ _)
    unfold applyUpdates
    rcases hs : stepOf env i with m | _ | ⟨h', m⟩ | h'
    · exact ih fun j hj => h j (List.mem_cons_of_mem _ hj)
    · exact ih fun j hj => h j (List.mem_cons_of_mem _ hj)
    · exact ih fun j hj => h j (List.mem_cons_of_mem _ hj)
    · rw [hs] at hi
      simp [StepResult.succeeds] at hi

/-- Detections split into persisted updates and failed writes. -/
theorem detects_split (env : Env) (l : List Invoice) :
    (l.filter (fun i => (stepOf env i).detects)).length =
      (l.filter (fun i => (stepOf env i).succeeds)).length +
        (l.filter (fun i => (stepOf env i).failedWrite)).length := by
  induction l with
  | nil => rfl
  | cons i rest ih =>
    rcases hs : stepOf env i with m | _ | ⟨h, m⟩ | h <;>
      simp [List.filter_cons, hs, StepResult.detects, StepResult.succeeds,
        StepResult.failedWrite] at ih ⊢ <;>
      omega

/-- A scan over transfers none of which uppercases to asset ETH finds
nothing. -/
theorem scanForMatch_none_of_no_eth (w : Int) (l : List Transfer)
    (hall : ∀ t ∈ l, t.asset.map jsToUpper ≠ some "ETH") :
    scanForMatch w l = none := by
  induction l with
  | nil => rfl
  | cons t ts ih =>
    simp only [scanForMatch]
    rw [if_pos (hall t (List.mem_cons_self _ _))]
    exact ih fun u hu => hall u (List.mem_cons_of_mem _ hu)

/-- A scan over any number of copies of the 1-Wei filler transfer finds no
1 ETH payment. -/
theorem scanForMatch_replicate_tSmall (n : Nat) :
    scanForMatch 1000000000000000000 (List.replicate n tSmall) = none := by
  induction n with
  | zero => rfl
  | succ n ih =>
    rw [List.replicate_succ]
    simp only [scanForMatch]
    rw [if_neg (by decide)]
    rw [show rawValueToBigInt tSmall.rawValue = some 1 from rfl]
    show (if (1 : Int) = 1000000000000000000 then tSmall.hash
      else scanForMatch 1000000000000000000 (List.replicate n tSmall)) = none
    rw [if_neg (by decide)]
    exact ih

/-! ## Claims -/

/-- C1: the claim states that after any sequence of passes at most one
invoice ever holds a given paymentTxHash, even when several UNPAID invoices
share the same payment address and amount. The code contradicts it (and the
spec scenario that of two 0.5 ETH invoices sharing 0xdef exactly one
becomes PAID): monitorPayments keeps no consumed-transaction set, so with
two such invoices and a single matching 0.5 ETH transfer 0x1, one pass
marks BOTH invoices PAID with paymentTxHash 0x1. -/
theorem double_spend_two_invoices_one_transfer :
    (inv05 "a").paymentAddress = (inv05 "b").paymentAddress ∧
    (inv05 "a").amount = (inv05 "b").amount ∧
    monitorPayments envShared [inv05 "a", inv05 "b"] =
      .ok ({ checked := 2, detected := 2, updated := ["a", "b"], errors := [] },
        [{ inv05 "a" with status := .PAID, paymentTxHash := some "0x1", paidAt := some 1000 },
         { inv05 "b" with status := .PAID, paymentTxHash := some "0x1", paidAt := some 1000 }]) :=
  ⟨rfl, rfl, rfl⟩

/-- C2 counterexample: the claim states an ETH transfer of amount X+0.0001
matches invoice amount X. For X = 1 the history holds a single ETH transfer
of raw value 0xde111a6b7de4000 Wei, which is exactly the Wei value of
1 ETH + 0.0001 ETH, yet checkAddressForPayment reports no payment. -/
theorem tolerance_boundary_cex :
    amountToWei "1" = .ok 1000000000000000000 ∧
    rawValueToBigInt (some "0xde111a6b7de4000") =
      some (1000000000000000000 + 100000000000000) ∧
    checkAddressForPayment envOffByTol "0xABC" "1" = .ok none :=
  ⟨rfl, rfl, rfl⟩

/-- C2 (amended): the amount comparison is exact bigint equality in Wei,
carried out in exact integer arithmetic — with a single candidate ETH
transfer of parseable raw value r against an expected amount of Wei value
w, the check returns the transfer hash when r = w and nothing otherwise;
there is no tolerance band, so neither X+0.0001 nor X+0.00011 matches X. -/
theorem match_requires_exact_wei (env : Env) (addr X : String) (w r : Int) (t : Transfer)
    (hA : env.alchemyConfigured = true)
    (hw : amountToWei X = .ok w)
    (hl : env.ledger (jsToLower addr) = .ok [t])
    (ha : t.asset.map jsToUpper = some "ETH")
    (hr : rawValueToBigInt t.rawValue = some r) :
    checkAddressForPayment env addr X = .ok (if r = w then t.hash else none) := by
  unfold checkAddressForPayment
  rw [hA, if_neg (by simp), hw]
  unfold getAssetTransfers
  rw [hl]
  show Except.ok (scanForMatch w ([t].take MAX_TRANSFERS_PER_ADDRESS)) = _
  rw [show [t].take MAX_TRANSFERS_PER_ADDRESS = [t] from rfl]
  simp only [scanForMatch]
  rw [if_neg (by rw [ha]; exact fun hne => hne rfl), hr]

/-- C2 witness: at concrete inputs, the 1.0001 ETH transfer does not match
an invoice of amount 1, while an exact 1 ETH transfer does. -/
theorem match_requires_exact_wei_witness :
    checkAddressForPayment envOffByTol "0xABC" "1" = .ok none ∧
    checkAddressForPayment envExactPay "0xABC" "1" = .ok (some "0xbbb") := by
  constructor
  · have h := match_requires_exact_wei envOffByTol "0xABC" "1"
      1000000000000000000 1000100000000000000
      { hash := some "0xaaa", asset := some "ETH", rawValue := some "0xde111a6b7de4000" }
      rfl rfl rfl rfl rfl
    rw [if_neg (by decide)] at h
    exact h
  · have h := match_requires_exact_wei envExactPay "0xABC" "1"
      1000000000000000000 1000000000000000000
      { hash := some "0xbbb", asset := some "ETH", rawValue := some "0xde0b6b3a7640000" }
      rfl rfl rfl rfl rfl
    rw [if_pos rfl] at h
    exact h

/-- C3 counterexample: the claim states a transfer is accepted as payment
only if its asset matches the invoice currency. The pass never reads the
invoice currency (the findMany selects only id, amount and paymentAddress,
and the scan compares the transfer asset against the constant ETH): a
1 ETH transfer marks a USDC-denominated invoice of amount 1 as PAID. -/
theorem currency_isolation_cex :
    invUSDC.currency = "USDC" ∧
    monitorPayments envUSDC [invUSDC] =
      .ok ({ checked := 1, detected := 1, updated := ["u1"], errors := [] },
        [{ invUSDC with status := .PAID, paymentTxHash := some "0x2", paidAt := some 777 }]) :=
  ⟨rfl, rfl⟩

/-- C3 (amended): the only asset filter is the constant comparison against
ETH (case-insensitive), regardless of the invoice currency: if no transfer
in the history uppercases to asset ETH (for example an all-USDC history),
the check accepts nothing — so a USDC transfer never satisfies any invoice,
ETH-denominated ones included; but an ETH transfer may satisfy an invoice
denominated in another currency. -/
theorem non_eth_asset_never_matches (env : Env) (addr X : String) (l : List Transfer) (w : Int)
    (hA : env.alchemyConfigured = true)
    (hw : amountToWei X = .ok w)
    (hl : env.ledger (jsToLower addr) = .ok l)
    (hall : ∀ t ∈ l, t.asset.map jsToUpper ≠ some "ETH") :
    checkAddressForPayment env addr X = .ok none := by
  unfold checkAddressForPayment
  rw [hA, if_neg (by simp), hw]
  unfold getAssetTransfers
  rw [hl]
  show Except.ok (scanForMatch w (l.take MAX_TRANSFERS_PER_ADDRESS)) = _
  rw [scanForMatch_none_of_no_eth w _ (fun t ht => hall t (List.take_subset _ _ ht))]

/-- C3 witness: a history holding only a USDC transfer yields no match. -/
theorem non_eth_asset_never_matches_witness :
    checkAddressForPayment envUsdcOnly "0xabc" "1" = .ok none :=
  non_eth_asset_never_matches envUsdcOnly "0xabc" "1"
    [{ hash := some "0x7", asset := some "USDC", rawValue := some "0xf4240" }]
    1000000000000000000 rfl rfl rfl (by decide)

/-- C4: running the pass twice in a row against an unchanged transfer set
(same environment) is a no-op on the second run — the second run updates no
invoice (its updated list is empty) and leaves the store exactly as the
first run left it, because every invoice the first run marked PAID is no
longer selected as pending by the second. -/
theorem second_pass_no_op (env : Env) (s s1 : List Invoice) (sum1 : PaymentMonitorSummary)
    (hA : env.alchemyConfigured = true) (hF : env.findManyFail = none)
    (h1 : monitorPayments env s = .ok (sum1, s1)) :
    monitorPayments env s1 = .ok (runSummary env (pendingOf s1), s1) ∧
      (runSummary env (pendingOf s1)).updated = [] := by
  have hmaster := monitorPayments_ok env s hA hF
  rw [h1] at hmaster
  have hpair := Except.ok.inj hmaster
  have hs1 : s1 = applyUpdates env (pendingOf s) s := congrArg Prod.snd hpair
  have hkey : ∀ x ∈ pendingOf s1, (stepOf env x).succeeds = false := by
    intro x hx
    obtain ⟨hx1, hx2⟩ := List.mem_filter.mp hx
    rw [hs1, applyUpdates_eq_map] at hx1
    obtain ⟨rr, hrr, hxeq⟩ := List.mem_map.mp hx1
    rcases chain_shape env (pendingOf s) rr with ⟨heq, hall⟩ | ⟨_, hh, heq⟩
    · have hxr : x = rr := by rw [← hxeq, heq]
      have hrp : rr ∈ pendingOf s := List.mem_filter.mpr ⟨hrr, by rw [← hxr]; exact hx2⟩
      rw [hxr]
      exact hall rr hrp rfl
    · exfalso
      rw [← hxeq, heq] at hx2
      simp [pendingFilter, paidVersion] at hx2
  refine ⟨?_, ?_⟩
  · have h2 := monitorPayments_ok env s1 hA hF
    rw [applyUpdates_no_success env _ s1 hkey] at h2
    exact h2
  · show ((pendingOf s1).filter (fun i => (stepOf env i).succeeds)).map (fun i => i.id) = []
    rw [List.map_eq_nil_iff, List.filter_eq_nil_iff]
    intro a ha
    simp [hkey a ha]

/-- C4 witness: the envShared single-invoice first run pays invoice a; the
second run over the resulting store changes nothing. -/
theorem second_pass_no_op_witness :
    monitorPayments envShared [paid05a] =
      .ok (runSummary envShared (pendingOf [paid05a]), [paid05a]) ∧
      (runSummary envShared (pendingOf [paid05a])).updated = [] :=
  second_pass_no_op envShared [inv05 "a"] [paid05a]
    { checked := 1, detected := 1, updated := ["a"], errors := [] } rfl rfl rfl

/-- C5 counterexample: the claim states the pass re-checks that the
invoice status is still UNPAID immediately before the persistence write and
skips the write if it has changed. The write the pass issues
(db.invoice.update, embedded as markPaid) filters on id only: applied to a
store where the invoice has meanwhile become PAID with hash 0xold, it does
not skip — it overwrites the existing paymentTxHash. -/
theorem write_skips_nothing_cex :
    invAlreadyPaid.status = .PAID ∧
    markPaid [invAlreadyPaid] "p1" "0xnew" 5 =
      [{ invAlreadyPaid with paymentTxHash := some "0xnew", paidAt := some 5 }] :=
  ⟨rfl, rfl⟩

/-- C5 (amended): only the contract-event handler re-checks the status
before writing: when the invoice found by invoice number is already PAID,
handleInvoicePaid leaves the store untouched and returns normally (a
success-no-op, not an error); the transfer-scan pass itself performs no
such re-check (its write is unconditional on status, see the
counterexample). -/
theorem handler_skips_already_paid (s : List Invoice) (ev : PaidEvent) (inv : Invoice)
    (hfind : s.find? (fun i => i.invoiceNumber = ev.invoiceNumber) = some inv)
    (hpaid : inv.status = .PAID) :
    handleInvoicePaid s ev = s := by
  unfold handleInvoicePaid
  rw [hfind]
  exact if_pos hpaid

/-- C5 witness: an InvoicePaid event for the already-PAID invoice INV-p1
leaves the store unchanged. -/
theorem handler_skips_already_paid_witness :
    handleInvoicePaid [invAlreadyPaid] evSkip = [invAlreadyPaid] :=
  handler_skips_already_paid [invAlreadyPaid] evSkip invAlreadyPaid rfl rfl

/-- C6: failure propagation policy of the pass. Only a failure of the
initial pending-invoice findMany aborts (throws from) monitorPayments;
otherwise the pass returns normally with the per-invoice summary: every
invoice whose check threw is recorded as (invoiceId, message) in errors,
every invoice whose persistence write threw is recorded as
(invoiceId, DB update failed: message), and every invoice whose step
persisted appears in updated — each invoice outcome being the per-invoice
function stepOf, independent of the other invoices failures. -/
theorem per_invoice_failure_isolation (env : Env) (s : List Invoice)
    (hA : env.alchemyConfigured = true) :
    (∀ m, env.findManyFail = some m → monitorPayments env s = .error m) ∧
    (env.findManyFail = none →
      monitorPayments env s =
        .ok (runSummary env (pendingOf s), applyUpdates env (pendingOf s) s) ∧
      (∀ inv ∈ pendingOf s, ∀ m, stepOf env inv = .checkFailed m →
        (inv.id, m) ∈ (runSummary env (pendingOf s)).errors) ∧
      (∀ inv ∈ pendingOf s, ∀ hh m, stepOf env inv = .updateFailed hh m →
        (inv.id, "DB update failed: " ++ m) ∈ (runSummary env (pendingOf s)).errors) ∧
      (∀ inv ∈ pendingOf s, ∀ hh, stepOf env inv = .updatedOk hh →
        inv.id ∈ (runSummary env (pendingOf s)).updated)) := by
  constructor
  · intro m hm
    unfold monitorPayments
    rw [hA, if_neg (by simp), hm]
  · intro hF
    refine ⟨monitorPayments_ok env s hA hF, ?_, ?_, ?_⟩
    · intro inv hmem m hstep
      exact List.mem_filterMap.mpr ⟨inv, hmem, by simp [errOf, hstep]⟩
    · intro inv hmem hh m hstep
      exact List.mem_filterMap.mpr ⟨inv, hmem, by simp [errOf, hstep]⟩
    · intro inv hmem hh hstep
      exact List.mem_map.mpr
        ⟨inv, List.mem_filter.mpr ⟨hmem, by simp [hstep, StepResult.succeeds]⟩, rfl⟩

/-- C6 witness: against envFaulty (fetch failure for invoice ea, write
fault for invoice uf, working payment for invoice ob), the pass returns
normally, records both failures and still updates ob. -/
theorem per_invoice_failure_isolation_witness :
    monitorPayments envFaulty storeFaulty =
      .ok (runSummary envFaulty (pendingOf storeFaulty),
        applyUpdates envFaulty (pendingOf storeFaulty) storeFaulty) ∧
    ("ea", "upstream timeout") ∈ (runSummary envFaulty (pendingOf storeFaulty)).errors ∧
    ("uf", "DB update failed: " ++ "locked") ∈
      (runSummary envFaulty (pendingOf storeFaulty)).errors ∧
    "ob" ∈ (runSummary envFaulty (pendingOf storeFaulty)).updated := by
  have H := per_invoice_failure_isolation envFaulty storeFaulty rfl
  have H2 := H.2 rfl
  exact ⟨H2.1,
    H2.2.1 invErr (by decide) "upstream timeout" rfl,
    H2.2.2.1 invUF (by decide) "0x5" "locked" rfl,
    H2.2.2.2 invOk (by decide) "0x5" rfl⟩

/-- Pre-truncating the history to 100 records does not change what the
fetch hands to the scan. -/
theorem getAssetTransfers_truncate100 (env : Env) (a : String) :
    getAssetTransfers (truncate100 env) a MAX_TRANSFERS_PER_ADDRESS =
      getAssetTransfers env a MAX_TRANSFERS_PER_ADDRESS := by
  have hmm : ∀ (e : Except String (List Transfer)) (f g : List Transfer → List Transfer),
      (e.map f).map g = e.map (fun l => g (f l)) := by
    intro e f g
    cases e <;> rfl
  unfold getAssetTransfers truncate100
  show ((env.ledger a).map (fun l => l.take 100)).map
        (fun l => l.take MAX_TRANSFERS_PER_ADDRESS) =
      (env.ledger a).map (fun l => l.take MAX_TRANSFERS_PER_ADDRESS)
  rw [hmm]
  have hfun : (fun l : List Transfer => (l.take 100).take MAX_TRANSFERS_PER_ADDRESS) =
      (fun l : List Transfer => l.take MAX_TRANSFERS_PER_ADDRESS) := by
    funext l
    rw [List.take_take]
    rfl
  rw [hfun]

set_option maxRecDepth 10000 in
/-- C7 counterexample: the claim states that whenever the 100-record cap is
hit the adapter signals possibly-truncated to its caller. It does not: with
a history of 100 non-matching filler transfers the check returns ok none,
and with the same 100 fillers followed by a matching 1 ETH transfer (the
cap is hit and the match lies just past it) the caller receives the very
same ok none — indistinguishable from the no-payment case, with the
payment silently missed; the same matching transfer within the cap is
found. -/
theorem silent_truncation_cex :
    checkAddressForPayment envCapPlus "0xabc" "1" =
      checkAddressForPayment envCapOnly "0xabc" "1" ∧
    checkAddressForPayment envCapOnly "0xabc" "1" = .ok none ∧
    checkAddressForPayment envNoCap "0xabc" "1" = .ok (some "0x9") :=
  ⟨rfl, rfl, rfl⟩

/-- C7 (amended): the fetch is bounded to MAX_TRANSFERS_PER_ADDRESS = 100
records per call, and no truncation signal exists — the outcome of the
check never depends on any history record past the first 100, so a capped
fetch is indistinguishable from an uncapped one to the caller. -/
theorem fetch_reads_first_100_only (env : Env) (addr X : String) :
    checkAddressForPayment env addr X = checkAddressForPayment (truncate100 env) addr X := by
  unfold checkAddressForPayment
  rw [show (truncate100 env).alchemyConfigured = env.alchemyConfigured from rfl]
  rcases hA : env.alchemyConfigured with _ | _
  · rw [if_pos rfl, if_pos rfl]
  · rw [if_neg (by simp), if_neg (by simp)]
    rcases hw : amountToWei X with e | w
    · rfl
    · rw [getAssetTransfers_truncate100]

/-- C8 counterexample: the claim states UNPAID to PAID is the only status
transition a pass ever performs. The contract-event handler (cited by the
claim) skips only invoices already PAID: an InvoicePaid event for an
OVERDUE invoice moves it OVERDUE to PAID. -/
theorem overdue_to_paid_cex :
    invOverdue.status = .OVERDUE ∧
    handleInvoicePaid [invOverdue] evOverdue =
      [{ invOverdue with
          status := .PAID, paymentTxHash := some "0xc0ffee",
          paidAt := some 1700000000000, paidViaContract := true }] :=
  ⟨rfl, rfl⟩

/-- C8 (amended): every write is atomic and hash-setting is tied to the
moment of becoming PAID, but the handler transition is from any non-PAID
status. Precisely, over a store with pairwise distinct ids: (1) a
monitorPayments run either leaves a row unchanged or moves an UNPAID row to
PAID setting paymentTxHash and paidAt in that same write (in particular
rows already PAID are never touched, so a hash, once set, stays); (2) the
contract-event handler either leaves a row unchanged or moves a non-PAID
row (UNPAID or OVERDUE) to PAID setting paymentTxHash, paidAt and
paidViaContract in that same write. -/
theorem paid_write_shape (env : Env) (s st : List Invoice) (sum : PaymentMonitorSummary)
    (hN : (s.map (fun i => i.id)).Nodup)
    (h : monitorPayments env s = .ok (sum, st)) :
    List.Forall₂ (fun r r' => r' = r ∨
      (r.status = .UNPAID ∧ ∃ hh, r' =
        { r with
          status := .PAID, paymentTxHash := some hh, paidAt := some env.now })) s st ∧
    (∀ (s' : List Invoice) (ev : PaidEvent), (s'.map (fun i => i.id)).Nodup →
      List.Forall₂ (fun r r' => r' = r ∨
        (r.status ≠ .PAID ∧ r' =
          { r with
            status := .PAID, paymentTxHash := some ev.txHash,
            paidAt := some (ev.timestampSec * 1000), paidViaContract := true }))
        s' (handleInvoicePaid s' ev)) := by
  constructor
  · rcases hA : env.alchemyConfigured with _ | _
    · unfold monitorPayments at h
      rw [hA, if_pos rfl] at h
      have hst : st = s := (congrArg Prod.snd (Except.ok.inj h)).symm
      subst hst
      exact List.forall₂_same.mpr fun x _ => Or.inl rfl
    · rcases hF : env.findManyFail with _ | m
      · have hm := monitorPayments_ok env s hA hF
        rw [h] at hm
        have hst : st = applyUpdates env (pendingOf s) s :=
          congrArg Prod.snd (Except.ok.inj hm)
        subst hst
        rw [applyUpdates_eq_map, List.forall₂_map_right_iff]
        refine List.forall₂_same.mpr ?_
        intro x hx
        rcases chain_shape env (pendingOf s) x with ⟨heq, _⟩ | ⟨⟨i, hi, hid, hisucc⟩, hh, heq⟩
        · exact Or.inl heq
        · right
          obtain ⟨hiS, hiP⟩ := List.mem_filter.mp hi
          have hieq : i = x := List.inj_on_of_nodup_map hN hiS hx hid
          refine ⟨?_, hh, heq⟩
          rw [← hieq]
          simp only [pendingFilter, Bool.and_eq_true, decide_eq_true_eq] at hiP
          exact hiP.1
      · unfold monitorPayments at h
        rw [hA, if_neg (by simp), hF] at h
        exact absurd h (by simp)
  · intro s' ev hN'
    rcases hfind : s'.find? (fun i => i.invoiceNumber = ev.invoiceNumber) with _ | invoice
    · have hnone : handleInvoicePaid s' ev = s' := by
        unfold handleInvoicePaid
        rw [hfind]
      rw [hnone]
      exact List.forall₂_same.mpr fun x _ => Or.inl rfl
    · by_cases hp : invoice.status = .PAID
      · have hskip : handleInvoicePaid s' ev = s' := by
          unfold handleInvoicePaid
          rw [hfind]
          exact if_pos hp
        rw [hskip]
        exact List.forall₂_same.mpr fun x _ => Or.inl rfl
      · have hmap : handleInvoicePaid s' ev =
            s'.map (fun inv => if inv.id = invoice.id then
              { inv with
                status := .PAID, paymentTxHash := some ev.txHash,
                paidAt := some (ev.timestampSec * 1000), paidViaContract := true }
              else inv) := by
          unfold handleInvoicePaid
          rw [hfind]
          exact if_neg hp
        rw [hmap, List.forall₂_map_right_iff]
        refine List.forall₂_same.mpr ?_
        intro r hr
        by_cases hid : r.id = invoice.id
        · have hinv : invoice ∈ s' := List.mem_of_find?_eq_some hfind
          have hreq : r = invoice := List.inj_on_of_nodup_map hN' hr hinv hid
          refine Or.inr ⟨by rw [hreq]; exact hp, ?_⟩
          exact if_pos hid
        · exact Or.inl (if_neg hid)

/-- C8 witness: the envShared double-payment run only moves UNPAID rows to
PAID with hash and timestamp set together, and the handler run on the
OVERDUE invoice matches the non-PAID-to-PAID shape. -/
theorem paid_write_shape_witness :
    List.Forall₂ (fun r r' => r' = r ∨
      (r.status = .UNPAID ∧ ∃ hh, r' =
        { r with
          status := .PAID, paymentTxHash := some hh, paidAt := some envShared.now }))
      [inv05 "a", inv05 "b"]
      [{ inv05 "a" with status := .PAID, paymentTxHash := some "0x1", paidAt := some 1000 },
       { inv05 "b" with status := .PAID, paymentTxHash := some "0x1", paidAt := some 1000 }] ∧
    List.Forall₂ (fun r r' => r' = r ∨
      (r.status ≠ .PAID ∧ r' =
        { r with
          status := .PAID, paymentTxHash := some evOverdue.txHash,
          paidAt := some (evOverdue.timestampSec * 1000), paidViaContract := true }))
      [invOverdue] (handleInvoicePaid [invOverdue] evOverdue) := by
  have H := paid_write_shape envShared [inv05 "a", inv05 "b"]
    [{ inv05 "a" with status := .PAID, paymentTxHash := some "0x1", paidAt := some 1000 },
     { inv05 "b" with status := .PAID, paymentTxHash := some "0x1", paidAt := some 1000 }]
    { checked := 2, detected := 2, updated := ["a", "b"], errors := [] }
    (by decide) rfl
  exact ⟨H.1, H.2 [invOverdue] evOverdue (by decide)⟩

/-- C9: when the Alchemy client is not configured, monitorPayments returns
the empty summary (checked 0, detected 0, no updates, no errors — the
unavailability is not reported in errors) without reading or writing the
invoice store and without raising any error; the theorem holds for every
environment, in particular ones whose store reads and writes would fail. -/
theorem no_key_no_monitoring (env : Env) (s : List Invoice)
    (h : env.alchemyConfigured = false) :
    monitorPayments env s =
      .ok ({ checked := 0, detected := 0, updated := [], errors := [] }, s) := by
  unfold monitorPayments
  rw [h, if_pos rfl]
  rfl

/-- C9 witness: with no API key, a failing store and a nonempty invoice
list, the pass still returns the empty summary and the untouched store. -/
theorem no_key_no_monitoring_witness :
    monitorPayments envOffline [inv05 "a"] =
      .ok ({ checked := 0, detected := 0, updated := [], errors := [] }, [inv05 "a"]) :=
  no_key_no_monitoring envOffline [inv05 "a"] rfl

/-- C10: summary accounting of a completed pass — detected equals the
number of updated ids plus the number of pending invoices whose detected
payment failed to persist (exactly the DB-update-failed errors recorded),
hence updated-count is at most detected, detected is at most checked, and
checked equals the number of UNPAID invoices with a payment address in the
starting store. -/
theorem summary_accounting (env : Env) (s st : List Invoice) (sum : PaymentMonitorSummary)
    (hA : env.alchemyConfigured = true)
    (h : monitorPayments env s = .ok (sum, st)) :
    sum.detected = sum.updated.length +
      ((pendingOf s).filter (fun i => (stepOf env i).failedWrite)).length ∧
    sum.updated.length ≤ sum.detected ∧
    sum.detected ≤ sum.checked ∧
    sum.checked = (pendingOf s).length := by
  rcases hF : env.findManyFail with _ | m
  · have hm := monitorPayments_ok env s hA hF
    rw [h] at hm
    have hsum : sum = runSummary env (pendingOf s) := congrArg Prod.fst (Except.ok.inj hm)
    subst hsum
    refine ⟨?_, ?_, ?_, rfl⟩
    · show ((pendingOf s).filter (fun i => (stepOf env i).detects)).length = _
      rw [show (runSummary env (pendingOf s)).updated =
        ((pendingOf s).filter (fun i => (stepOf env i).succeeds)).map (fun i => i.id)
        from rfl]
      rw [List.length_map]
      exact detects_split env (pendingOf s)
    · show (((pendingOf s).filter (fun i => (stepOf env i).succeeds)).map
          (fun i => i.id)).length ≤
        ((pendingOf s).filter (fun i => (stepOf env i).detects)).length
      rw [List.length_map, detects_split env (pendingOf s)]
      exact Nat.le_add_right _ _
    · show ((pendingOf s).filter (fun i => (stepOf env i).detects)).length ≤
        (pendingOf s).length
      exact List.length_filter_le _ _
  · unfold monitorPayments at h
    rw [hA, if_neg (by simp), hF] at h
    exact absurd h (by simp)

/-- C10 witness: accounting holds for the faulty run (3 checked, 2
detected, 1 updated, 1 failed write). -/
theorem summary_accounting_witness :
    sumFaulty.detected = sumFaulty.updated.length +
      ((pendingOf storeFaulty).filter (fun i => (stepOf envFaulty i).failedWrite)).length ∧
    sumFaulty.updated.length ≤ sumFaulty.detected ∧
    sumFaulty.detected ≤ sumFaulty.checked ∧
    sumFaulty.checked = (pendingOf storeFaulty).length :=
  summary_accounting envFaulty storeFaulty stFaulty sumFaulty rfl rfl

end DeverseGate
